import Mathlib

/-!
Verification development for the executr job-execution system.

The definitions below are a shallow embedding of the coordinator's store
operations (the SQL statements in
`src/internal/db/migrations/001_initial_schema.up.sql` together with the
HTTP handlers in the server package), of the worker's output truncation
(`src/internal/executor/runner.go`), of the worker startup cleanup
(`src/internal/executor/executor.go`) and of the client SDK transport
(`src/pkg/client/client.go`, `RetryableHTTPClient`).

Conventions of the embedding:
* timestamps are natural numbers counting microseconds (the resolution of
  Postgres `TIMESTAMP` and of `pgtype.Interval.Microseconds`);
* the jobs table is a `List JobRow`; a SQL `UPDATE ... WHERE <cond>` on one
  row becomes a function `JobRow → JobRow` that applies the `SET` clause
  when the `WHERE` condition holds and is the identity otherwise;
* nullable columns are `Option` fields; SQL `NULL` comparisons are `none`.
-/

namespace Executr

/-- Job priority, the `priority` column:
`CHECK (priority IN ('foreground', 'background', 'best_effort'))`. -/
inductive Priority where
  | foreground
  | background
  | bestEffort
deriving DecidableEq, Repr

/-- The rank used by `ClaimNextJob`:
`CASE priority WHEN 'foreground' THEN 1 WHEN 'background' THEN 2
WHEN 'best_effort' THEN 3 END`. -/
def priorityRank : Priority → Nat
  | .foreground => 1
  | .background => 2
  | .bestEffort => 3

/-- Job status, the `status` column:
`CHECK (status IN ('pending', 'running', 'completed', 'failed', 'cancelled'))`. -/
inductive Status where
  | pending
  | running
  | completed
  | failed
  | cancelled
deriving DecidableEq, Repr

/-- One row of the `jobs` table (columns of `001_initial_schema.up.sql`
plus the three columns added by `002_add_retry_fields.up.sql`).
`retry_count` and `max_retries` are `INTEGER NOT NULL DEFAULT 0`;
`retry_count` only ever starts at 0 and is incremented, so it is a `Nat`,
while `max_retries` is copied from a client-supplied integer and is an `Int`. -/
structure JobRow where
  id : Nat
  jobType : String
  binaryUrl : String
  binarySha256 : String
  arguments : List String
  envVariables : List (String × String)
  priority : Priority
  status : Status
  executorId : Option String
  stdout : Option String
  stderr : Option String
  exitCode : Option Int
  errorMessage : Option String
  createdAt : Nat
  startedAt : Option Nat
  completedAt : Option Nat
  lastHeartbeat : Option Nat
  maxRetries : Int
  retryCount : Nat
  retryAfter : Option Nat
deriving DecidableEq, Repr

/-- `CancelJob`: `UPDATE jobs SET status='cancelled', completed_at=NOW()
WHERE id=$1 AND status='pending'`. -/
def cancelJob (j : JobRow) (now : Nat) : JobRow :=
  if j.status = Status.pending then
    { j with status := Status.cancelled, completedAt := some now }
  else j

/-- The `SET` clause of `ClaimNextJob`: `status='running', executor_id=$1,
started_at=NOW(), last_heartbeat=NOW()`. -/
def claimStamp (j : JobRow) (exec : String) (now : Nat) : JobRow :=
  { j with status := Status.running, executorId := some exec,
           startedAt := some now, lastHeartbeat := some now }

/-- `ClaimNextJob` viewed as a single-row update: the subquery only selects
rows with `status='pending'` (held under `FOR UPDATE`), so the update fires
exactly on a pending row. -/
def claimRow (j : JobRow) (exec : String) (now : Nat) : JobRow :=
  if j.status = Status.pending then claimStamp j exec now else j

/-- `UpdateHeartbeat`: `UPDATE jobs SET last_heartbeat=NOW()
WHERE id=$1 AND executor_id=$2 AND status='running'`. -/
def updateHeartbeat (j : JobRow) (exec : String) (now : Nat) : JobRow :=
  if j.status = Status.running ∧ j.executorId = some exec then
    { j with lastHeartbeat := some now }
  else j

/-- `CompleteJob`: `UPDATE jobs SET status='completed', stdout=$2, stderr=$3,
exit_code=$4, completed_at=NOW() WHERE id=$1 AND status='running'`. -/
def completeJob (j : JobRow) (out err : Option String) (code : Option Int)
    (now : Nat) : JobRow :=
  if j.status = Status.running then
    { j with status := Status.completed, stdout := out, stderr := err,
             exitCode := code, completedAt := some now }
  else j

/-- `FailJob`: `UPDATE jobs SET status='failed', stdout=$2, stderr=$3,
exit_code=$4, error_message=$5, completed_at=NOW()
WHERE id=$1 AND status='running'`. -/
def failJob (j : JobRow) (out err : Option String) (code : Option Int)
    (msg : Option String) (now : Nat) : JobRow :=
  if j.status = Status.running then
    { j with status := Status.failed, stdout := out, stderr := err,
             exitCode := code, errorMessage := msg, completedAt := some now }
  else j

/-- `ResetStaleJob`: `UPDATE jobs SET status='pending', executor_id=NULL,
started_at=NULL, last_heartbeat=NULL WHERE id=$1 AND status='running'`. -/
def resetStaleJob (j : JobRow) : JobRow :=
  if j.status = Status.running then
    { j with status := Status.pending, executorId := none,
             startedAt := none, lastHeartbeat := none }
  else j

/-- `IncrementJobRetry`: increments `retry_count`, resets the row to
`pending` and clears the result fields, gated by
`WHERE id=$1 AND status='failed' AND retry_count < max_retries`;
`retry_after = NOW() + INTERVAL '1 minute' * POWER(2, retry_count)`
(one minute is 60000000 microseconds). -/
def incrementJobRetry (j : JobRow) (now : Nat) : JobRow :=
  if j.status = Status.failed ∧ (j.retryCount : Int) < j.maxRetries then
    { j with retryCount := j.retryCount + 1, status := Status.pending,
             retryAfter := some (now + 60000000 * 2 ^ j.retryCount),
             errorMessage := none, stdout := none, stderr := none,
             exitCode := none, startedAt := none, completedAt := none,
             executorId := none, lastHeartbeat := none }
  else j

/-- `handleHeartbeat` runs `UpdateHeartbeat` against the whole table: only
the row with the given id (if any) is touched, and only when it is running
and owned by `exec`. The handler answers 204 regardless of whether a row
matched. -/
def dbUpdateHeartbeat (db : List JobRow) (jobId : Nat) (exec : String)
    (now : Nat) : List JobRow :=
  db.map (fun r => if r.id = jobId then updateHeartbeat r exec now else r)

/-- The strict ordering used by the `ClaimNextJob` subquery:
`ORDER BY CASE priority ... END, created_at` — rank first, then creation
time. -/
def claimLT (a b : JobRow) : Prop :=
  priorityRank a.priority < priorityRank b.priority ∨
    (priorityRank a.priority = priorityRank b.priority ∧ a.createdAt < b.createdAt)

instance (a b : JobRow) : Decidable (claimLT a b) := by
  unfold claimLT; infer_instance

/-- Keep the better of the head `j` and the best of the rest (if any) for
the `ORDER BY rank, created_at` ordering. -/
def pickMin (j : JobRow) : Option JobRow → JobRow
  | none => j
  | some b => if claimLT b j then b else j

/-- `ORDER BY rank, created_at ... LIMIT 1` over a candidate list: returns
a row that is minimal for `claimLT` (`none` on the empty list). -/
def selectMin : List JobRow → Option JobRow
  | [] => none
  | j :: rest => some (pickMin j (selectMin rest))

/-- `ClaimNextJob` on the whole table: pick the minimal pending row, stamp
it running, and return the post-image together with the updated table;
`none` (the handler's 204) when no pending row exists. -/
def claimNextJob (db : List JobRow) (exec : String) (now : Nat) :
    Option JobRow × List JobRow :=
  match selectMin (db.filter (fun j => decide (j.status = Status.pending))) with
  | none => (none, db)
  | some sel =>
    let post := claimStamp sel exec now
    (some post, db.map (fun r => if r.id = sel.id then post else r))

/-- The mutating coordinator row operations of the job API and background
loops, each carrying the arguments its SQL statement takes. -/
inductive CoordOp where
  | cancel (now : Nat)
  | claim (exec : String) (now : Nat)
  | complete (out err : Option String) (code : Option Int) (now : Nat)
  | fail (out err : Option String) (code : Option Int) (msg : Option String) (now : Nat)
  | staleReset
  | retryPromote (now : Nat)
  | heartbeat (exec : String) (now : Nat)

/-- Dispatch a coordinator operation to the row-update function embedding
its SQL statement. -/
def applyOp : CoordOp → JobRow → JobRow
  | .cancel now, j => cancelJob j now
  | .claim exec now, j => claimRow j exec now
  | .complete out err code now, j => completeJob j out err code now
  | .fail out err code msg now, j => failJob j out err code msg now
  | .staleReset, j => resetStaleJob j
  | .retryPromote now, j => incrementJobRetry j now
  | .heartbeat exec now, j => updateHeartbeat j exec now

/-- Sequential application of coordinator operations to one row. -/
def applyOps (ops : List CoordOp) (j : JobRow) : JobRow :=
  ops.foldl (fun r op => applyOp op r) j

/-- The status-transition DAG of the specification (reflexivity covers
operations whose `WHERE` clause does not match). -/
def statusStepOK (s t : Status) : Prop :=
  s = t ∨
    (s = Status.pending ∧ (t = Status.running ∨ t = Status.cancelled)) ∨
    (s = Status.running ∧
      (t = Status.completed ∨ t = Status.failed ∨ t = Status.pending)) ∨
    (s = Status.failed ∧ t = Status.pending)

/-- The request body of `POST /api/v1/jobs` (`models.JobSubmission`):
`priority` travels as a raw string and is only constrained later by the
database `CHECK` constraint. -/
structure JobSubmission where
  jobType : String
  binaryUrl : String
  binarySha256 : String
  arguments : List String
  envVariables : List (String × String)
  priority : String
  maxRetries : Int
deriving DecidableEq, Repr

/-- The `CHECK (priority IN ('foreground','background','best_effort'))`
constraint, as a parser into `Priority` (`none` means the insert violates
the constraint). -/
def parsePriority : String → Option Priority
  | "foreground" => some Priority.foreground
  | "background" => some Priority.background
  | "best_effort" => some Priority.bestEffort
  | _ => none

/-- The row inserted by `CreateJob` for a submission: only type, url,
digest, arguments, env and priority are supplied; `status` defaults to
`'pending'`, `created_at` to `NOW()`, and `max_retries`/`retry_count`
to their column defaults 0. -/
def newJobRow (sub : JobSubmission) (p : Priority) (id now : Nat) : JobRow :=
  { id := id, jobType := sub.jobType, binaryUrl := sub.binaryUrl,
    binarySha256 := sub.binarySha256, arguments := sub.arguments,
    envVariables := sub.envVariables, priority := p,
    status := Status.pending, executorId := none, stdout := none,
    stderr := none, exitCode := none, errorMessage := none,
    createdAt := now, startedAt := none, completedAt := none,
    lastHeartbeat := none, maxRetries := 0, retryCount := 0,
    retryAfter := none }

/-- Outcome of `handleSubmitJob`: 201 with the inserted row, 400 for the
handler's validation failure, 500 when the `CreateJob` insert errors (in
particular when the priority violates the `CHECK` constraint). -/
inductive SubmitResult where
  | created (job : JobRow)
  | badRequest
  | serverError
deriving DecidableEq, Repr

/-- `handleSubmitJob` (single-job `POST /jobs`): rejects with 400 only when
`submission.Type == "" || submission.BinaryURL == ""`; otherwise calls
`CreateJob`, which does not pass `max_retries` (the column keeps its
default 0). An unrecognized priority makes the insert fail the `CHECK`
constraint, which the handler reports as 500. -/
def handleSubmitJob (sub : JobSubmission) (db : List JobRow) (id now : Nat) :
    SubmitResult × List JobRow :=
  if sub.jobType = "" ∨ sub.binaryUrl = "" then (SubmitResult.badRequest, db)
  else
    match parsePriority sub.priority with
    | some p =>
      let row := newJobRow sub p id now
      (SubmitResult.created row, db ++ [row])
    | none => (SubmitResult.serverError, db)

/-- One row of the `job_attempts` table. -/
structure AttemptRow where
  id : Nat
  jobId : Nat
  executorId : String
  executorIp : String
  startedAt : Nat
  endedAt : Option Nat
  status : String
  errorMessage : Option String
deriving DecidableEq, Repr

/-- Insertion step for sorting attempts by `started_at DESC`. -/
def insertByStartedAtDesc (a : AttemptRow) : List AttemptRow → List AttemptRow
  | [] => [a]
  | b :: rest =>
    if b.startedAt ≤ a.startedAt then a :: b :: rest
    else b :: insertByStartedAtDesc a rest

/-- `GetJobAttempts`: `SELECT * FROM job_attempts WHERE job_id = $1
ORDER BY started_at DESC`. -/
def getJobAttempts (atts : List AttemptRow) (jobId : Nat) : List AttemptRow :=
  (atts.filter (fun a => decide (a.jobId = jobId))).foldr insertByStartedAtDesc []

/-- `handleGetJob`: `GetJob` by id, 404 on no row. The handler also runs
`GetJobAttempts` and converts the rows, but the encoded response is
`dbJobToModel(job)` alone — `models.Job` has no attempts field and the
converted attempts are dropped ("For now, return the job without
attempts"), so the response type here is just the job row. -/
def handleGetJob (db : List JobRow) (jobId : Nat) : Except Nat JobRow :=
  match db.find? (fun j => decide (j.id = jobId)) with
  | none => Except.error 404
  | some j => Except.ok j

/-- Terminal statuses targeted by `CleanupOldJobs`:
`status IN ('completed', 'failed', 'cancelled')`. -/
def terminalStatus (s : Status) : Bool :=
  decide (s = Status.completed) || decide (s = Status.failed) ||
    decide (s = Status.cancelled)

/-- The interval `cleanupOldJobs` hands to `CleanupOldJobs`, in
microseconds: `interval.Microseconds = int64(s.config.JobRetention) *
3600000000` — the seconds-configured retention multiplied by the number of
microseconds in an hour. -/
def cleanupRetentionMicros (jobRetention : Nat) : Nat :=
  jobRetention * 3600000000

/-- One tick of the retention cleanup: `DELETE FROM jobs WHERE status IN
('completed','failed','cancelled') AND completed_at < NOW() - $1::interval`
(a row with `completed_at IS NULL` never matches). -/
def cleanupOldJobs (jobRetention now : Nat) (db : List JobRow) : List JobRow :=
  db.filter (fun j =>
    !(terminalStatus j.status &&
      (match j.completedAt with
       | some t => decide (t + cleanupRetentionMicros jobRetention < now)
       | none => false)))

/-- `ON DELETE CASCADE` on `job_attempts.job_id`: after deleting jobs,
only attempts whose job still exists remain. -/
def cascadeAttempts (db : List JobRow) (atts : List AttemptRow) :
    List AttemptRow :=
  atts.filter (fun a => db.any (fun j => decide (j.id = a.jobId)))

/-- A directory entry as seen by `os.ReadDir` in
`cleanupOrphanedDirectories`. -/
structure DirEntry where
  name : String
  isDir : Bool
deriving DecidableEq, Repr

/-- `cleanupOrphanedDirectories`: iterates the work-directory entries and
calls `os.RemoveAll` only on those with `entry.IsDir()`; assuming removals
succeed, the entries that remain are exactly the non-directories. -/
def cleanupOrphanedDirectories (entries : List DirEntry) : List DirEntry :=
  entries.filter (fun e => !e.isDir)

/-- The retry predicate of `NewRetryableHTTPClient`: retry on transport
error (`err != nil`, modelled as `none`) and on
`resp.StatusCode >= 500 || resp.StatusCode == 429`. -/
def shouldRetry (resp : Option Nat) : Bool :=
  match resp with
  | none => true
  | some code => decide (500 ≤ code) || decide (code = 429)

/-- The attempt loop of `RetryableHTTPClient.DoWithContext`, counting how
many HTTP attempts are performed: attempt `i` is issued, the loop returns
after it when `shouldRetry` fails, and otherwise continues while attempts
remain (`fuel` is `maxRetries - i`). -/
def attemptsFrom (resp : Nat → Option Nat) : Nat → Nat → Nat
  | 0, i => i + 1
  | fuel + 1, i => if shouldRetry (resp i) then attemptsFrom resp fuel (i + 1) else i + 1

/-- Total number of attempts `DoWithContext` performs for a request whose
successive responses are `resp 0, resp 1, ...`. -/
def attemptsUsed (maxRetries : Nat) (resp : Nat → Option Nat) : Nat :=
  attemptsFrom resp maxRetries 0

/-- `maxRetries` of `NewRetryableHTTPClient`. -/
def clientDefaultMaxRetries : Nat := 3

/-- The operations of the client SDK interface (`client.Client`). -/
inductive ClientOp where
  | submitJob
  | getJob
  | listJobs
  | cancelJob
  | claimNextJob
  | heartbeat
  | completeJob
  | failJob
  | health
deriving DecidableEq, Repr

/-- Which SDK operations send their request through the retrying transport:
every method of `HTTPClient` — `SubmitJob`, `GetJob`, `ListJobs`,
`CancelJob`, `ClaimNextJob`, `Heartbeat`, `CompleteJob`, `FailJob`,
`Health` — calls `c.httpClient.DoWithContext`, the `RetryableHTTPClient`. -/
def opUsesRetryTransport : ClientOp → Bool
  | .submitJob => true
  | .getJob => true
  | .listJobs => true
  | .cancelJob => true
  | .claimNextJob => true
  | .heartbeat => true
  | .completeJob => true
  | .failJob => true
  | .health => true

/-- The `WHERE` clause of `GetRetriableJobs`: `status = 'failed' AND
retry_count < max_retries AND (retry_after IS NULL OR retry_after <
NOW())`. -/
def isRetriable (j : JobRow) (now : Nat) : Bool :=
  decide (j.status = Status.failed) &&
    decide ((j.retryCount : Int) < j.maxRetries) &&
    (match j.retryAfter with
     | none => true
     | some t => decide (t < now))

/-- A concrete pending row, used to instantiate the general theorems. -/
def jobPendingEx : JobRow :=
  { id := 1, jobType := "test", binaryUrl := "http://bin",
    binarySha256 := "00", arguments := [], envVariables := [],
    priority := Priority.background, status := Status.pending,
    executorId := none, stdout := none, stderr := none, exitCode := none,
    errorMessage := none, createdAt := 10, startedAt := none,
    completedAt := none, lastHeartbeat := none, maxRetries := 0,
    retryCount := 0, retryAfter := none }

/-- A concrete completed row whose `completed_at` lies 172801 seconds in
the past of the clock value used with it. -/
def jobCompletedOld : JobRow :=
  { jobPendingEx with
    id := 2,
    status := Status.completed,
    completedAt := some 0 }

/-- A concrete running row owned by executor `w-1`. -/
def jobRunningEx : JobRow :=
  { jobPendingEx with
    id := 3,
    status := Status.running,
    executorId := some "w-1",
    startedAt := some 20,
    lastHeartbeat := some 20 }

/-- A concrete failed row with the default `max_retries = 0`. -/
def jobFailedEx : JobRow :=
  { jobPendingEx with
    id := 4,
    status := Status.failed,
    completedAt := some 30 }

/-- A concrete attempt row belonging to job 3. -/
def attemptEx : AttemptRow :=
  { id := 1, jobId := 3, executorId := "w-1", executorIp := "10.0.0.1",
    startedAt := 20, endedAt := none, status := "running",
    errorMessage := none }

/-- A concrete submission whose `type` contains whitespace and whose other
fields are well-formed. -/
def subWhitespaceType : JobSubmission :=
  { jobType := "a b", binaryUrl := "http://bin", binarySha256 := "",
    arguments := [], envVariables := [], priority := "foreground",
    maxRetries := 2 }

/-- A concrete submission with a non-empty whitespace-free `type`, a
non-empty `binaryURL` and a priority string outside the recognized set. -/
def subBadPriority : JobSubmission :=
  { jobType := "clean", binaryUrl := "http://bin", binarySha256 := "",
    arguments := [], envVariables := [], priority := "urgent",
    maxRetries := 0 }

/-- A response sequence whose first answer is HTTP 500 and whose later
answers are HTTP 204. -/
def resp500then204 : Nat → Option Nat :=
  fun i => if i = 0 then some 500 else some 204

/-- A plain (non-directory) entry in the worker's work directory. -/
def strayFileEntry : DirEntry := { name := "stray.bin", isDir := false }

/-- `maxOutputSize = 1024 * 1024` from `runner.go`. -/
def maxOutputSize : Nat := 1024 * 1024

/-- `maxHeadLines = 500` from `runner.go`. -/
def maxHeadLines : Nat := 500

/-- The separator `strings.Split(output, "\n")` splits on. -/
def newlineChar : Char := Char.ofNat 10

/-- The marker `fmt.Sprintf("\n... [OUTPUT TRUNCATED - Total %d bytes, %d
lines] ...\n", len(output), len(lines))`. Go strings are byte sequences;
they are modelled as `List Char` with one element per byte, so `len` is
`List.length`. -/
def truncMarker (totalBytes totalLines : Nat) : List Char :=
  ("\n... [OUTPUT TRUNCATED - Total " ++ Nat.repr totalBytes ++ " bytes, "
    ++ Nat.repr totalLines ++ " lines] ...\n").toList

/-- `strings.Join(ls, sep)`: elements joined with the separator between
consecutive elements. -/
def goJoin (sep : List Char) : List (List Char) → List Char
  | [] => []
  | [x] => x
  | x :: y :: rest => x ++ sep ++ goJoin sep (y :: rest)

/-- The size one line contributes in the tail loop of `truncateOutput`:
`lineSize := len(lines[i]) + 1`. -/
def lineWeight (l : List Char) : Nat := l.length + 1

/-- The backward scan of `truncateOutput`: starting from the last line and
moving towards line `maxHeadLines`, keep prepending lines while the
accumulated `tailSize` stays within `remaining`; stop at the first line
that does not fit. `rev` is the tail of the line list reversed, `sz` the
accumulated size, `acc` the lines kept so far (in original order). -/
def tailLoop (remaining : Nat) : List (List Char) → Nat → List (List Char) → List (List Char)
  | [], _, acc => acc
  | l :: rest, sz, acc =>
    if remaining < sz + lineWeight l then acc
    else tailLoop remaining rest (sz + lineWeight l) (l :: acc)

/-- `truncateOutput` from `runner.go`: within the cap return verbatim;
with at most `maxHeadLines` lines cut at the cap; otherwise keep the first
`maxHeadLines` lines, append the truncation marker, and fill the remaining
budget with as many trailing lines as fit. -/
def truncateOutput (output : List Char) : List Char :=
  if output.length ≤ maxOutputSize then output
  else
    let lines := output.splitOn newlineChar
    if lines.length ≤ maxHeadLines then output.take maxOutputSize
    else
      let result := goJoin [newlineChar] (lines.take maxHeadLines) ++
        truncMarker output.length lines.length
      if maxOutputSize ≤ result.length then result.take maxOutputSize
      else
        result ++ goJoin [newlineChar]
          (tailLoop (maxOutputSize - result.length)
            ((lines.drop maxHeadLines).reverse) 0 [])

/-- Total tail size of a list of kept lines, matching the loop's
`tailSize` accumulator. -/
def tailWeight (ls : List (List Char)) : Nat := (ls.map lineWeight).sum

theorem tailWeight_cons (x : List Char) (ls : List (List Char)) :
    tailWeight (x :: ls) = lineWeight x + tailWeight ls := by
  simp [tailWeight]

theorem goJoin_length_le (ls : List (List Char)) :
    (goJoin [newlineChar] ls).length ≤ tailWeight ls := by
  induction ls with
  | nil => simp [goJoin, tailWeight]
  | cons x rest ih =>
    cases rest with
    | nil => simp [goJoin, tailWeight, lineWeight]
    | cons y rest2 =>
      rw [goJoin, tailWeight_cons]
      simp only [List.length_append]
      have := ih
      simp only [lineWeight, List.length_singleton]
      omega

theorem tailLoop_weight_le (remaining : Nat) (rev : List (List Char)) :
    ∀ sz acc, tailWeight acc = sz → sz ≤ remaining →
      tailWeight (tailLoop remaining rev sz acc) ≤ remaining := by
  induction rev with
  | nil => intro sz acc hacc hle; simpa [tailLoop, hacc] using hle
  | cons l rest ih =>
    intro sz acc hacc hle
    rw [tailLoop]
    by_cases h : remaining < sz + lineWeight l
    · simpa [h, hacc] using hle
    · rw [if_neg h]
      exact ih (sz + lineWeight l) (l :: acc)
        (by rw [tailWeight_cons, hacc]; omega) (by omega)

theorem truncateOutput_length_le (output : List Char) :
    (truncateOutput output).length ≤ maxOutputSize := by
  rw [truncateOutput]
  by_cases h1 : output.length ≤ maxOutputSize
  · rw [if_pos h1]; exact h1
  · rw [if_neg h1]
    set lines := output.splitOn newlineChar with hlines
    by_cases h2 : lines.length ≤ maxHeadLines
    · rw [if_pos h2]
      simp [List.length_take]
    · rw [if_neg h2]
      set result := goJoin [newlineChar] (lines.take maxHeadLines) ++
        truncMarker output.length lines.length with hres
      by_cases h3 : maxOutputSize ≤ result.length
      · rw [if_pos h3]
        simp [List.length_take]
      · rw [if_neg h3]
        have htail : tailWeight (tailLoop (maxOutputSize - result.length)
            ((lines.drop maxHeadLines).reverse) 0 []) ≤
            maxOutputSize - result.length :=
          tailLoop_weight_le _ _ 0 [] (by simp [tailWeight]) (by omega)
        have hjoin := goJoin_length_le (tailLoop (maxOutputSize - result.length)
          ((lines.drop maxHeadLines).reverse) 0 [])
        simp only [List.length_append]
        omega

theorem truncateOutput_of_le (t : List Char) (h : t.length ≤ maxOutputSize) :
    truncateOutput t = t := by
  rw [truncateOutput, if_pos h]

theorem selectMin_eq_none_iff (l : List JobRow) :
    selectMin l = none ↔ l = [] := by
  cases l with
  | nil => simp [selectMin]
  | cons j rest => simp [selectMin]

theorem selectMin_mem (l : List JobRow) (m : JobRow)
    (h : selectMin l = some m) : m ∈ l := by
  induction l generalizing m with
  | nil => simp [selectMin] at h
  | cons j rest ih =>
    rw [selectMin, Option.some_inj] at h
    cases hr : selectMin rest with
    | none => rw [hr, pickMin] at h; simp [h]
    | some b =>
      rw [hr, pickMin] at h
      by_cases hlt : claimLT b j
      · rw [if_pos hlt] at h
        subst h
        exact List.mem_cons_of_mem _ (ih b hr)
      · rw [if_neg hlt] at h
        simp [← h]

theorem claimLT_shift (b j q : JobRow) (h1 : ¬claimLT b j)
    (h2 : claimLT q j) : claimLT q b := by
  simp only [claimLT] at *
  omega

theorem selectMin_not_lt (l : List JobRow) (m : JobRow)
    (h : selectMin l = some m) : ∀ q ∈ l, ¬claimLT q m := by
  induction l generalizing m with
  | nil => simp [selectMin] at h
  | cons j rest ih =>
    rw [selectMin, Option.some_inj] at h
    cases hr : selectMin rest with
    | none =>
      rw [hr, pickMin] at h
      subst h
      have hnil : rest = [] := (selectMin_eq_none_iff rest).mp hr
      subst hnil
      intro q hq
      simp only [List.mem_singleton] at hq
      subst hq
      simp only [claimLT]
      omega
    | some b =>
      rw [hr, pickMin] at h
      by_cases hlt : claimLT b j
      · rw [if_pos hlt] at h
        subst h
        intro q hq
        rcases List.mem_cons.mp hq with hq | hq
        · subst hq
          intro hcon
          simp only [claimLT] at hlt hcon
          omega
        · exact ih b hr q hq
      · rw [if_neg hlt] at h
        subst h
        intro q hq
        rcases List.mem_cons.mp hq with hq | hq
        · subst hq
          simp only [claimLT]
          omega
        · intro hcon
          exact ih b hr q hq (claimLT_shift b j q hlt hcon)

/-- C3: for every captured output `s`, the truncation function of the job
runner returns a string of at most `maxOutputSize` (1 MiB) bytes, and
truncating an already-truncated output changes nothing:
`truncateOutput (truncateOutput s) = truncateOutput s`. -/
theorem truncateOutput_bounded_and_idempotent (s : List Char) :
    (truncateOutput s).length ≤ maxOutputSize ∧
      truncateOutput (truncateOutput s) = truncateOutput s :=
  ⟨truncateOutput_length_le s,
    truncateOutput_of_le _ (truncateOutput_length_le s)⟩

/-- C1: `claim(executorID, executorIP)` — when no pending job exists the
claim returns empty (the handler's 204) and leaves the table unchanged;
when it returns a job, that job was a pending row of minimal priority rank
(foreground=1 < background=2 < best_effort=3) and, within that rank, of
minimal `created_at`; exactly that row is atomically rewritten to
`running` with `executor_id`, `started_at = now` and
`last_heartbeat = now` stamped, and the post-image is returned. -/
theorem claimNextJob_spec (db : List JobRow) (exec : String) (now : Nat) :
    ((∀ j ∈ db, j.status ≠ Status.pending) →
        claimNextJob db exec now = (none, db)) ∧
    ((claimNextJob db exec now).1 = none →
        ∀ j ∈ db, j.status ≠ Status.pending) ∧
    (∀ p db2, claimNextJob db exec now = (some p, db2) →
      ∃ sel, sel ∈ db ∧ sel.status = Status.pending ∧
        (∀ q ∈ db, q.status = Status.pending →
          priorityRank sel.priority ≤ priorityRank q.priority ∧
            (priorityRank q.priority = priorityRank sel.priority →
              sel.createdAt ≤ q.createdAt)) ∧
        p = claimStamp sel exec now ∧
        p.status = Status.running ∧ p.executorId = some exec ∧
        p.startedAt = some now ∧ p.lastHeartbeat = some now ∧
        db2 = db.map (fun r => if r.id = sel.id then p else r)) := by
  refine ⟨?_, ?_, ?_⟩
  · intro hall
    have hfil : db.filter (fun j => decide (j.status = Status.pending)) = [] := by
      rw [List.filter_eq_nil_iff]
      intro a ha
      simpa using hall a ha
    rw [claimNextJob, hfil]
    rfl
  · intro hnone j hj hpend
    rcases hsel : selectMin (db.filter (fun j => decide (j.status = Status.pending))) with _ | sel
    · have hfil := (selectMin_eq_none_iff _).mp hsel
      have : j ∈ db.filter (fun j => decide (j.status = Status.pending)) := by
        rw [List.mem_filter]
        exact ⟨hj, by simp [hpend]⟩
      rw [hfil] at this
      simp at this
    · rw [claimNextJob, hsel] at hnone
      simp at hnone
  · intro p db2 h
    rcases hsel : selectMin (db.filter (fun j => decide (j.status = Status.pending))) with _ | sel
    · rw [claimNextJob, hsel] at h
      simp at h
    · rw [claimNextJob, hsel] at h
      simp only [Prod.mk.injEq, Option.some_inj] at h
      obtain ⟨hp, hdb2⟩ := h
      have hmem := selectMin_mem _ _ hsel
      rw [List.mem_filter] at hmem
      obtain ⟨hmemdb, hpend⟩ := hmem
      have hpend' : sel.status = Status.pending := by simpa using hpend
      refine ⟨sel, hmemdb, hpend', ?_, hp.symm, ?_, ?_, ?_, ?_, ?_⟩
      · intro q hq hqpend
        have hqfil : q ∈ db.filter (fun j => decide (j.status = Status.pending)) := by
          rw [List.mem_filter]
          exact ⟨hq, by simp [hqpend]⟩
        have hnot := selectMin_not_lt _ _ hsel q hqfil
        simp only [claimLT] at hnot
        constructor
        · omega
        · intro heq; omega
      · rw [← hp]; rfl
      · rw [← hp]; rfl
      · rw [← hp]; rfl
      · rw [← hp]; rfl
      · rw [← hdb2, ← hp]

theorem handleSubmitJob_inserts_pending (sub : JobSubmission)
    (db : List JobRow) (id now : Nat) :
    ∀ r ∈ (handleSubmitJob sub db id now).2, r ∈ db ∨ r.status = Status.pending := by
  intro r hr
  rw [handleSubmitJob] at hr
  by_cases h : sub.jobType = "" ∨ sub.binaryUrl = ""
  · rw [if_pos h] at hr
    exact Or.inl hr
  · rw [if_neg h] at hr
    cases hp : parsePriority sub.priority with
    | none => rw [hp] at hr; exact Or.inl hr
    | some p =>
      rw [hp] at hr
      simp only [List.mem_append, List.mem_singleton] at hr
      rcases hr with h1 | h1
      · exact Or.inl h1
      · subst h1; exact Or.inr rfl

/-- C2: every mutating coordinator row operation (cancel, claim, complete,
fail, stale reset, retry promotion, heartbeat) respects the
status-transition DAG; a failed row only moves to pending when
`retry_count < max_retries` held; completed and cancelled rows are left
entirely untouched by every operation; and submit only ever adds rows
whose status is pending. -/
theorem coordinator_status_dag (op : CoordOp) (j : JobRow) :
    statusStepOK j.status (applyOp op j).status ∧
    (j.status = Status.failed ∧ (applyOp op j).status = Status.pending →
      (j.retryCount : Int) < j.maxRetries) ∧
    ((j.status = Status.completed ∨ j.status = Status.cancelled) →
      applyOp op j = j) ∧
    (∀ sub db id now, ∀ r ∈ (handleSubmitJob sub db id now).2,
      r ∈ db ∨ r.status = Status.pending) := by
  refine ⟨?_, ?_, ?_, fun sub db id now => handleSubmitJob_inserts_pending sub db id now⟩
  · cases op <;>
      simp only [applyOp, cancelJob, claimRow, claimStamp, completeJob,
        failJob, resetStaleJob, incrementJobRetry, updateHeartbeat] <;>
      split_ifs <;>
      simp_all [statusStepOK]
  · cases op <;>
      simp only [applyOp, cancelJob, claimRow, claimStamp, completeJob,
        failJob, resetStaleJob, incrementJobRetry, updateHeartbeat] <;>
      split_ifs <;>
      simp_all
  · cases op <;>
      simp only [applyOp, cancelJob, claimRow, claimStamp, completeJob,
        failJob, resetStaleJob, incrementJobRetry, updateHeartbeat] <;>
      split_ifs <;>
      simp_all

theorem updateHeartbeat_idem (j : JobRow) (exec : String) (now : Nat) :
    updateHeartbeat (updateHeartbeat j exec now) exec now =
      updateHeartbeat j exec now := by
  by_cases h : j.status = Status.running ∧ j.executorId = some exec
  · obtain ⟨h1, h2⟩ := h
    simp [updateHeartbeat, h1, h2]
  · simp only [updateHeartbeat, if_neg h]

/-- C7: the heartbeat update stamps `last_heartbeat = now` exactly when
the row is running and owned by the calling executor; on any other row it
changes nothing (the handler still answers 204); repeating it any number
of times gives the same post-state as doing it once, also when the
repetitions carry later timestamps (N consecutive owner heartbeats leave
the post-state of the last one); and it touches no row when the job id is
absent from the table. -/
theorem updateHeartbeat_spec (j : JobRow) (exec : String) (now : Nat)
    (db : List JobRow) (jobId : Nat) :
    (j.status = Status.running ∧ j.executorId = some exec →
      updateHeartbeat j exec now = { j with lastHeartbeat := some now }) ∧
    (¬(j.status = Status.running ∧ j.executorId = some exec) →
      updateHeartbeat j exec now = j) ∧
    (∀ n : Nat, (fun r => updateHeartbeat r exec now)^[n + 1] j =
      updateHeartbeat j exec now) ∧
    (∀ t2 : Nat, updateHeartbeat (updateHeartbeat j exec now) exec t2 =
      updateHeartbeat j exec t2) ∧
    ((∀ r ∈ db, r.id ≠ jobId) → dbUpdateHeartbeat db jobId exec now = db) := by
  refine ⟨?_, ?_, ?_, ?_, ?_⟩
  · intro h; rw [updateHeartbeat, if_pos h]
  · intro h; rw [updateHeartbeat, if_neg h]
  · intro n
    induction n with
    | zero => simp
    | succ m ih =>
      rw [Function.iterate_succ_apply'] at ih ⊢
      rw [Function.iterate_succ_apply', ih]
      exact updateHeartbeat_idem j exec now
  · intro t2
    by_cases h : j.status = Status.running ∧ j.executorId = some exec
    · obtain ⟨h1, h2⟩ := h
      simp [updateHeartbeat, h1, h2]
    · simp only [updateHeartbeat, if_neg h]
  · intro h
    rw [dbUpdateHeartbeat]
    have heach : ∀ r ∈ db,
        (if r.id = jobId then updateHeartbeat r exec now else r) = r :=
      fun r hr => if_neg (h r hr)
    rw [List.map_congr_left heach]
    simp

/-- C4: evaluating one retention-cleanup tick at the failing input. The
`job-retention` flag is configured in seconds (default 172800 = 48 h), yet
`cleanupOldJobs` multiplies it by 3600000000 — the number of microseconds
in an hour — so the interval handed to the `DELETE` is the configured
number of HOURS. A completed job 172801 seconds old, i.e. older than the
configured 172800-second retention, survives the tick. -/
theorem retention_cleanup_units_failing_input :
    terminalStatus jobCompletedOld.status = true ∧
    jobCompletedOld.completedAt = some 0 ∧
    0 + 172800 * 1000000 < 172801000000 ∧
    cleanupOldJobs 172800 172801000000 [jobCompletedOld] = [jobCompletedOld] := by
  decide

/-- C5: evaluating the GET-job handler at the failing input. For an
existing job that has one recorded attempt, `GetJobAttempts` yields the
newest-first attempt list, but the handler's response carries the job
snapshot alone — the fetched attempts are dropped before encoding. An
absent id yields 404. -/
theorem getJob_response_drops_attempts :
    handleGetJob [jobRunningEx] 3 = Except.ok jobRunningEx ∧
    getJobAttempts [attemptEx] 3 = [attemptEx] ∧
    getJobAttempts [attemptEx] 3 ≠ [] ∧
    handleGetJob [jobRunningEx] 999 = Except.error 404 :=
  ⟨rfl, by decide, by decide, rfl⟩

/-- C6 counterexample: a submission whose `type` contains whitespace (and
whose other fields are well-formed) is not rejected — the handler inserts
a row and answers 201 — and a submission with an unrecognized priority is
not answered with 400 either: its insert fails the `CHECK` constraint and
the handler answers 500. Both refute the claim as stated. -/
theorem submit_whitespace_type_accepted :
    (' ' ∈ subWhitespaceType.jobType.data ∧
      (handleSubmitJob subWhitespaceType [] 7 5).1 =
        SubmitResult.created (newJobRow subWhitespaceType Priority.foreground 7 5) ∧
      (handleSubmitJob subWhitespaceType [] 7 5).2 ≠ []) ∧
    (parsePriority subBadPriority.priority = none ∧
      handleSubmitJob subBadPriority [] 8 5 = (SubmitResult.serverError, []) ∧
      (handleSubmitJob subBadPriority [] 8 5).1 ≠ SubmitResult.badRequest) := by
  decide

/-- C6 amended: the single-job submit handler rejects with 400 exactly
when `type` or `binaryURL` is empty (no whitespace or priority check),
inserting nothing in that case; a submission passing that check with a
recognized priority is inserted with `status = pending` and
`created_at = now`; one with an unrecognized priority fails the database
`CHECK` constraint, which surfaces as 500 with no row inserted. -/
theorem handleSubmitJob_validation (sub : JobSubmission) (db : List JobRow)
    (id now : Nat) :
    ((handleSubmitJob sub db id now).1 = SubmitResult.badRequest ↔
      sub.jobType = "" ∨ sub.binaryUrl = "") ∧
    (sub.jobType = "" ∨ sub.binaryUrl = "" →
      (handleSubmitJob sub db id now).2 = db) ∧
    (∀ p, ¬(sub.jobType = "" ∨ sub.binaryUrl = "") →
      parsePriority sub.priority = some p →
      handleSubmitJob sub db id now =
        (SubmitResult.created (newJobRow sub p id now),
          db ++ [newJobRow sub p id now]) ∧
      (newJobRow sub p id now).status = Status.pending ∧
      (newJobRow sub p id now).createdAt = now) ∧
    (¬(sub.jobType = "" ∨ sub.binaryUrl = "") →
      parsePriority sub.priority = none →
      handleSubmitJob sub db id now = (SubmitResult.serverError, db)) := by
  refine ⟨?_, ?_, ?_, ?_⟩
  · by_cases h : sub.jobType = "" ∨ sub.binaryUrl = ""
    · simp [handleSubmitJob, h]
    · simp only [handleSubmitJob, if_neg h]
      cases hp : parsePriority sub.priority <;> simp [h]
  · intro h; simp [handleSubmitJob, h]
  · intro p h hp
    simp [handleSubmitJob, if_neg h, hp, newJobRow]
  · intro h hp
    simp [handleSubmitJob, if_neg h, hp]

/-- C8 counterexample: a plain file left in the work directory survives
the startup cleanup — the loop only removes entries with `entry.IsDir()` —
so "the work directory contains no entries" after startup is false. -/
theorem workdir_file_survives_startup_cleanup :
    strayFileEntry.isDir = false ∧
    cleanupOrphanedDirectories [strayFileEntry] = [strayFileEntry] ∧
    cleanupOrphanedDirectories [strayFileEntry] ≠ [] := by
  decide

/-- C8 amended: at startup the worker removes every DIRECTORY entry under
the work directory (assuming removals succeed); entries that are not
directories are kept, and afterwards no directory entry remains. -/
theorem cleanup_removes_only_directories (entries : List DirEntry) :
    (∀ e ∈ cleanupOrphanedDirectories entries, e.isDir = false ∧ e ∈ entries) ∧
    (∀ e ∈ entries, e.isDir = false → e ∈ cleanupOrphanedDirectories entries) ∧
    (∀ e ∈ entries, e.isDir = true → e ∉ cleanupOrphanedDirectories entries) := by
  refine ⟨?_, ?_, ?_⟩
  · intro e he
    rw [cleanupOrphanedDirectories, List.mem_filter] at he
    obtain ⟨hmem, hdir⟩ := he
    refine ⟨?_, hmem⟩
    simpa using hdir
  · intro e he hf
    rw [cleanupOrphanedDirectories, List.mem_filter]
    exact ⟨he, by simp [hf]⟩
  · intro e _ hd hc
    rw [cleanupOrphanedDirectories, List.mem_filter] at hc
    obtain ⟨_, hdir⟩ := hc
    simp [hd] at hdir

theorem cleanup_removes_only_directories_witness :
    strayFileEntry ∈ cleanupOrphanedDirectories [strayFileEntry] :=
  (cleanup_removes_only_directories [strayFileEntry]).2.1 strayFileEntry
    (by decide) rfl

/-- C9 counterexample: `CompleteJob` — a mutating operation — sends its
request through the `RetryableHTTPClient`; when the first response is an
HTTP 500, the transport performs a second attempt, refuting "mutating
operations are never automatically retried". -/
theorem completeJob_autoretried_on_500 :
    opUsesRetryTransport ClientOp.completeJob = true ∧
    attemptsUsed clientDefaultMaxRetries resp500then204 = 2 ∧
    1 < attemptsUsed clientDefaultMaxRetries resp500then204 := by
  decide

theorem attemptsFrom_le (resp : Nat → Option Nat) :
    ∀ fuel i, attemptsFrom resp fuel i ≤ i + fuel + 1 := by
  intro fuel
  induction fuel with
  | zero => intro i; simp [attemptsFrom]
  | succ f ih =>
    intro i
    rw [attemptsFrom]
    split
    · have := ih (i + 1); omega
    · omega

theorem attemptsFrom_ge (resp : Nat → Option Nat) :
    ∀ fuel i, i + 1 ≤ attemptsFrom resp fuel i := by
  intro fuel
  induction fuel with
  | zero => intro i; simp [attemptsFrom]
  | succ f ih =>
    intro i
    rw [attemptsFrom]
    split
    · have := ih (i + 1); omega
    · omega

/-- C9 amended: the SDK transport treats every operation uniformly — all
nine client methods, the mutating ones included, go through the retrying
client, which performs exactly one attempt when the first response is not
retryable (success, 4xx other than 429), at most `maxRetries + 1` attempts
in total, and at least two attempts whenever the first response is a
transport error, a 5xx or a 429 and a retry remains. -/
theorem transport_retry_uniform (op : ClientOp) (resp : Nat → Option Nat)
    (maxR : Nat) :
    opUsesRetryTransport op = true ∧
    (shouldRetry (resp 0) = false → attemptsUsed maxR resp = 1) ∧
    attemptsUsed maxR resp ≤ maxR + 1 ∧
    (shouldRetry (resp 0) = true → 1 ≤ maxR →
      2 ≤ attemptsUsed maxR resp) := by
  refine ⟨by cases op <;> rfl, ?_, ?_, ?_⟩
  · intro h
    cases maxR with
    | zero => rfl
    | succ f => rw [attemptsUsed, attemptsFrom]; simp [h]
  · have := attemptsFrom_le resp maxR 0
    rw [attemptsUsed]
    omega
  · intro h1 h2
    cases maxR with
    | zero => omega
    | succ f =>
      rw [attemptsUsed, attemptsFrom]
      simp only [h1, if_true]
      exact attemptsFrom_ge resp f 1

theorem transport_retry_uniform_witness :
    attemptsUsed clientDefaultMaxRetries (fun _ => some 204) = 1 :=
  (transport_retry_uniform ClientOp.getJob (fun _ => some 204)
    clientDefaultMaxRetries).2.1 rfl

theorem applyOp_maxRetries_eq (op : CoordOp) (j : JobRow) :
    (applyOp op j).maxRetries = j.maxRetries := by
  cases op <;>
    simp only [applyOp, cancelJob, claimRow, claimStamp, completeJob,
      failJob, resetStaleJob, incrementJobRetry, updateHeartbeat] <;>
    split_ifs <;> rfl

theorem applyOps_maxRetries_eq (ops : List CoordOp) (j : JobRow) :
    (applyOps ops j).maxRetries = j.maxRetries := by
  induction ops generalizing j with
  | nil => rfl
  | cons op rest ih =>
    simp only [applyOps, List.foldl_cons] at *
    rw [ih (applyOp op j), applyOp_maxRetries_eq]

/-- C10: the single-job submit path stores every job with
`max_retries = 0` (the handler calls `CreateJob`, which omits the column,
leaving its default); no coordinator operation ever changes
`max_retries`; and a job with `max_retries = 0` is never selected by
`GetRetriableJobs` nor moved by `IncrementJobRetry` — a singly-submitted
job that fails stays failed. -/
theorem single_submit_never_retried :
    (∀ sub db id now row db2,
      handleSubmitJob sub db id now = (SubmitResult.created row, db2) →
        row.maxRetries = 0) ∧
    (∀ ops (j : JobRow), j.maxRetries = 0 →
      (applyOps ops j).maxRetries = 0) ∧
    (∀ (j : JobRow) (t : Nat), j.maxRetries = 0 →
      isRetriable j t = false ∧ incrementJobRetry j t = j) := by
  refine ⟨?_, ?_, ?_⟩
  · intro sub db id now row db2 h
    rw [handleSubmitJob] at h
    by_cases hv : sub.jobType = "" ∨ sub.binaryUrl = ""
    · rw [if_pos hv] at h; simp at h
    · rw [if_neg hv] at h
      cases hp : parsePriority sub.priority with
      | none => rw [hp] at h; simp at h
      | some p =>
        rw [hp] at h
        simp only [Prod.mk.injEq, SubmitResult.created.injEq] at h
        obtain ⟨h1, _⟩ := h
        rw [← h1]
        rfl
  · intro ops j h
    rw [applyOps_maxRetries_eq]
    exact h
  · intro j t h
    have hneg : ¬((j.retryCount : Int) < j.maxRetries) := by
      rw [h]; omega
    refine ⟨?_, ?_⟩
    · simp [isRetriable, hneg]
    · rw [incrementJobRetry, if_neg]
      intro hc
      exact hneg hc.2

theorem single_submit_never_retried_witness :
    isRetriable jobFailedEx 50 = false ∧
      incrementJobRetry jobFailedEx 50 = jobFailedEx :=
  single_submit_never_retried.2.2 jobFailedEx 50 rfl

theorem claimNextJob_spec_witness :
    claimNextJob [jobRunningEx] "w" 5 = (none, [jobRunningEx]) :=
  (claimNextJob_spec [jobRunningEx] "w" 5).1 (by decide)

theorem coordinator_status_dag_witness :
    applyOp (CoordOp.cancel 3) jobCompletedOld = jobCompletedOld :=
  (coordinator_status_dag (CoordOp.cancel 3) jobCompletedOld).2.2.1
    (Or.inl rfl)

theorem updateHeartbeat_spec_witness :
    updateHeartbeat jobRunningEx "w-1" 99 =
      { jobRunningEx with lastHeartbeat := some 99 } :=
  (updateHeartbeat_spec jobRunningEx "w-1" 99 [] 0).1 ⟨rfl, rfl⟩

theorem handleSubmitJob_validation_witness :
    handleSubmitJob subWhitespaceType [] 7 5 =
      (SubmitResult.created (newJobRow subWhitespaceType Priority.foreground 7 5),
        [newJobRow subWhitespaceType Priority.foreground 7 5]) :=
  ((handleSubmitJob_validation subWhitespaceType [] 7 5).2.2.1
    Priority.foreground (by decide) (by decide)).1

end Executr
